import Mathlib

/-!
Verification of gocast.

A shallow embedding of `main.go` (the command-line weather tool) and theorems
about its weather-code classification, country-code resolution, geocoding
candidate selection, positional-argument split and forecast truncation.

Conventions of the embedding.

* A Go `int` is a Lean `Int` (the code compares weather codes only against
  small constants, so no wrap-around is involved).
* A Go `string` is a Lean `String`, a sequence of Unicode code points; Go's
  `len` is the number of bytes of the UTF-8 encoding (`len` below).
* A `float64` decoded from JSON is a finite number; the code only carries such
  values to the formatter, so they are represented by `Rat`.
* A Go `(T, error)` result is an `Except String T`, the string being the
  message built by `fmt.Errorf`.
* A run-time panic (index out of range, nil dereference) is a value of `Panic`.
-/

namespace Gocast

/-! ## Weather-code classification (`getWeatherIcon`, `getWeatherASCII`) -/

/-- Embedding of `getWeatherIcon` (main.go, lines 402-419): the compact icon for
a weather code. The string literals are the ones of the source file. -/
def getWeatherIcon (code : Int) : String :=
  if code = 0 then "â˜€ï¸"
  else if code ≥ 1 ∧ code ≤ 3 then "â›…"
  else if code ≥ 45 ∧ code ≤ 48 then "ðŸŒ«ï¸"
  else if code ≥ 51 ∧ code ≤ 67 then "ðŸŒ¦ï¸"
  else if code ≥ 80 ∧ code ≤ 82 then "ðŸŒ§ï¸"
  else if code ≥ 95 ∧ code ≤ 99 then "â›ˆï¸"
  else "â˜ï¸"

/-- Embedding of `getWeatherASCII` (main.go, lines 302-355): the multi-line
scene for a weather code. Each literal is the raw string of the source, with
its line breaks written `\n`, the backslash `\x5c` and the apostrophe `\x27`. -/
def getWeatherASCII (code : Int) : String :=
  if code = 0 then
    "\n    \x5c   /    \n     .-.     \n  â€’ (   ) â€’  \n     \x27-\x27     \n    /   \x5c    \n   Clear Sky  "
  else if code ≥ 1 ∧ code ≤ 3 then
    "\n   .--.      \n.-(    ).    \n(___.__)__)  \n Partly Cloudy"
  else if code ≥ 45 ∧ code ≤ 48 then
    "\n_ - _ - _ -   \n _ - _ - _    \n_ - _ - _ -   \n    Fog      "
  else if code ≥ 51 ∧ code ≤ 67 then
    "\n     .-.     \n    (   ).   \n   (___(__)  \n  â€š â€š â€š â€š    \n â€š â€š â€š â€š     \n   Drizzle   "
  else if code ≥ 80 ∧ code ≤ 82 then
    "\n     .-.     \n    (   ).   \n   (___(__)  \n  â€š\x27â€š\x27â€š\x27â€š\x27   \n â€š\x27â€š\x27â€š\x27â€š\x27    \n  Rain Shower"
  else if code ≥ 95 ∧ code ≤ 99 then
    "\n     .-.     \n    (   ).   \n   (___(__)  \n  â€š\x27âš¡\x27â€š\x27âš¡   \n â€š\x27â€š\x27â€š\x27â€š\x27    \n Thunderstorm"
  else
    "\n      .--.   \n   .-(    ). \n  (___.__)__)\n    Cloudy   "

/-- The seven buckets of the weather-code classification, as the specification
names them. -/
inductive Bucket
  | clear
  | partlyCloudy
  | fog
  | drizzle
  | rainShower
  | thunderstorm
  | cloudy
  deriving DecidableEq, Repr

/-- The classification as the specification words it: one bucket per integer,
the listed ranges first and "cloudy" for every other integer. -/
def classification (c : Int) : Bucket :=
  if c = 0 then Bucket.clear
  else if 1 ≤ c ∧ c ≤ 3 then Bucket.partlyCloudy
  else if 45 ≤ c ∧ c ≤ 48 then Bucket.fog
  else if 51 ≤ c ∧ c ≤ 67 then Bucket.drizzle
  else if 80 ≤ c ∧ c ≤ 82 then Bucket.rainShower
  else if 95 ≤ c ∧ c ≤ 99 then Bucket.thunderstorm
  else Bucket.cloudy

/-- The icon of each bucket, as a table: sun for clear, sun behind cloud for
partly cloudy, fog, sun and rain for drizzle, rain cloud for rain shower,
thunder cloud for thunderstorm, cloud for cloudy (the byte sequences are those
the source file holds for these icons). -/
def Bucket.icon : Bucket → String
  | Bucket.clear => "â˜€ï¸"
  | Bucket.partlyCloudy => "â›…"
  | Bucket.fog => "ðŸŒ«ï¸"
  | Bucket.drizzle => "ðŸŒ¦ï¸"
  | Bucket.rainShower => "ðŸŒ§ï¸"
  | Bucket.thunderstorm => "â›ˆï¸"
  | Bucket.cloudy => "â˜ï¸"

/-- The ASCII scene of each bucket, as a table: every scene ends with the
caption of its bucket (Clear Sky, Partly Cloudy, Fog, Drizzle, Rain Shower,
Thunderstorm, Cloudy). -/
def Bucket.scene : Bucket → String
  | Bucket.clear =>
    "\n    \x5c   /    \n     .-.     \n  â€’ (   ) â€’  \n     \x27-\x27     \n    /   \x5c    \n   Clear Sky  "
  | Bucket.partlyCloudy =>
    "\n   .--.      \n.-(    ).    \n(___.__)__)  \n Partly Cloudy"
  | Bucket.fog =>
    "\n_ - _ - _ -   \n _ - _ - _    \n_ - _ - _ -   \n    Fog      "
  | Bucket.drizzle =>
    "\n     .-.     \n    (   ).   \n   (___(__)  \n  â€š â€š â€š â€š    \n â€š â€š â€š â€š     \n   Drizzle   "
  | Bucket.rainShower =>
    "\n     .-.     \n    (   ).   \n   (___(__)  \n  â€š\x27â€š\x27â€š\x27â€š\x27   \n â€š\x27â€š\x27â€š\x27â€š\x27    \n  Rain Shower"
  | Bucket.thunderstorm =>
    "\n     .-.     \n    (   ).   \n   (___(__)  \n  â€š\x27âš¡\x27â€š\x27âš¡   \n â€š\x27â€š\x27â€š\x27â€š\x27    \n Thunderstorm"
  | Bucket.cloudy =>
    "\n      .--.   \n   .-(    ). \n  (___.__)__)\n    Cloudy   "

/-- The caption that names a bucket at the end of its scene. -/
def Bucket.caption : Bucket → String
  | Bucket.clear => "Clear Sky"
  | Bucket.partlyCloudy => "Partly Cloudy"
  | Bucket.fog => "Fog"
  | Bucket.drizzle => "Drizzle"
  | Bucket.rainShower => "Rain Shower"
  | Bucket.thunderstorm => "Thunderstorm"
  | Bucket.cloudy => "Cloudy"

/-- The last line of a text (what follows its last line break) without its
leading and trailing spaces. -/
def lastLineTrimmed (s : String) : String :=
  let line := (s.data.reverse.takeWhile (fun ch => ch ≠ Char.ofNat 10)).reverse
  ⟨((line.dropWhile (fun ch => ch = Char.ofNat 32)).reverse.dropWhile
    (fun ch => ch = Char.ofNat 32)).reverse⟩

/-! ## Go strings and the library functions the program calls -/

/-- Go's `utf8.RuneLen`: the number of bytes of the UTF-8 encoding of a rune. -/
def runeLen (r : Char) : Nat :=
  if r.toNat < 0x80 then 1
  else if r.toNat < 0x800 then 2
  else if r.toNat < 0x10000 then 3
  else 4

/-- Go's built-in `len` on a string: its length in bytes. -/
def len (s : String) : Nat := (s.data.map runeLen).sum

/-- Go's `unicode.IsSpace`: the Latin-1 spaces `\t \n \v \f \r`, space, U+0085
and U+00A0, and above Latin-1 the code points with the White_Space property. -/
def isSpace (r : Char) : Bool :=
  let n := r.toNat
  if n ≤ 0xFF then
    n = 0x09 || n = 0x0A || n = 0x0B || n = 0x0C || n = 0x0D || n = 0x20 ||
      n = 0x85 || n = 0xA0
  else
    n = 0x1680 || (0x2000 ≤ n && n ≤ 0x200A) || n = 0x2028 || n = 0x2029 ||
      n = 0x202F || n = 0x205F || n = 0x3000

/-- Go's `strings.TrimSpace`: the string without its leading and trailing
white space. -/
def TrimSpace (s : String) : String :=
  ⟨((s.data.dropWhile isSpace).reverse.dropWhile isSpace).reverse⟩

/-- The part of Go's Unicode case tables that is consulted for runes above
U+007F. The tables belong to the Go library, not to this program, so they are a
parameter of the embedding: every theorem holds whatever they contain.
`upper` is `unicode.ToUpper` on a non-ASCII rune; `foldEq lo hi` tells whether
the `unicode.SimpleFold` orbit of `lo` reaches `hi`, for `lo < hi` not both
ASCII. -/
structure CaseTables where
  upper : Char → Char
  foldEq : Char → Char → Bool

/-- Case tables that leave every non-ASCII rune alone. They serve the concrete
evaluations below, which are on ASCII text, where the tables are not consulted. -/
def asciiOnly : CaseTables where
  upper := fun r => r
  foldEq := fun _ _ => false

/-- Go's `unicode.ToUpper`: an ASCII lower-case letter loses `'a' - 'A'`, any
other ASCII rune is unchanged, a non-ASCII rune goes through the case tables. -/
def toUpperRune (U : CaseTables) (r : Char) : Char :=
  if r.toNat ≤ 0x7F then
    if 0x61 ≤ r.toNat ∧ r.toNat ≤ 0x7A then Char.ofNat (r.toNat - 0x20) else r
  else U.upper r

/-- Go's `strings.ToUpper`: every rune mapped to its upper case. -/
def ToUpper (U : CaseTables) (s : String) : String :=
  ⟨s.data.map (toUpperRune U)⟩

/-- One step of Go's `strings.EqualFold`: two runes are equal under simple case
folding when they are equal, or, ordered as `lo < hi`, when both are ASCII and
`lo` is an upper-case letter whose lower case is `hi`, or when one is not ASCII
and the fold orbit of `lo` reaches `hi`. -/
def equalFoldRune (U : CaseTables) (sr tr : Char) : Bool :=
  if tr = sr then true
  else
    let lo := if tr.toNat < sr.toNat then tr else sr
    let hi := if tr.toNat < sr.toNat then sr else tr
    if hi.toNat < 0x80 then
      0x41 ≤ lo.toNat && lo.toNat ≤ 0x5A && hi.toNat = lo.toNat + 0x20
    else U.foldEq lo hi

/-- The rune-by-rune comparison of `strings.EqualFold`: it fails as soon as one
string is exhausted before the other. -/
def equalFoldRunes (U : CaseTables) : List Char → List Char → Bool
  | [], [] => true
  | sr :: s, tr :: t => equalFoldRune U sr tr && equalFoldRunes U s t
  | _, _ => false

/-- Go's `strings.EqualFold`: equality under simple Unicode case folding. -/
def EqualFold (U : CaseTables) (s t : String) : Bool :=
  equalFoldRunes U s.data t.data

/-- Go's `strings.Join`: no element gives the empty string, one element gives
that element, otherwise the first element followed by each further element
preceded by the separator. -/
def Join (elems : List String) (sep : String) : String :=
  match elems with
  | [] => ""
  | [e] => e
  | e :: rest => rest.foldl (fun b s => b ++ sep ++ s) e

/-! ## Country-code resolution (`getCountryCode`) -/

/-- The map literal `countryMap` of `getCountryCode` (main.go, lines 193-230),
entry by entry in source order. -/
def countryMap : List (String × String) :=
  [ ("UK", "GB"),
    ("UNITED KINGDOM", "GB"),
    ("GREAT BRITAIN", "GB"),
    ("ENGLAND", "GB"),
    ("SCOTLAND", "GB"),
    ("WALES", "GB"),
    ("NORTHERN IRELAND", "GB"),
    ("US", "US"),
    ("USA", "US"),
    ("UNITED STATES", "US"),
    ("AMERICA", "US"),
    ("CANADA", "CA"),
    ("FRANCE", "FR"),
    ("GERMANY", "DE"),
    ("ITALY", "IT"),
    ("SPAIN", "ES"),
    ("PORTUGAL", "PT"),
    ("NETHERLANDS", "NL"),
    ("HOLLAND", "NL"),
    ("BELGIUM", "BE"),
    ("SWITZERLAND", "CH"),
    ("AUSTRIA", "AT"),
    ("DENMARK", "DK"),
    ("SWEDEN", "SE"),
    ("NORWAY", "NO"),
    ("FINLAND", "FI"),
    ("IRELAND", "IE"),
    ("AUSTRALIA", "AU"),
    ("NEW ZEALAND", "NZ"),
    ("JAPAN", "JP"),
    ("CHINA", "CN"),
    ("INDIA", "IN"),
    ("RUSSIA", "RU"),
    ("BRAZIL", "BR"),
    ("MEXICO", "MX"),
    ("SOUTH AFRICA", "ZA") ]

/-- The first statement of `getCountryCode` (line 185):
`strings.ToUpper(strings.TrimSpace(country))`. -/
def normalize (U : CaseTables) (country : String) : String :=
  ToUpper U (TrimSpace country)

/-- Embedding of `getCountryCode` (main.go, lines 184-238). The map index
`countryMap[country]` with its `exists` flag is `List.lookup` on the entries. -/
def getCountryCode (U : CaseTables) (country : String) : String :=
  let country := normalize U country
  -- If already a 2-letter code, return as-is
  if len country = 2 then country
  else
    match countryMap.lookup country with
    | some code => code
    | none => ""

/-! ## Geocoding (`geocodeLocation`) -/

/-- The Go struct `GeocodeResult` (main.go, lines 19-26). -/
structure GeocodeResult where
  Name : String
  Latitude : Rat
  Longitude : Rat
  Country : String
  CountryCode : String
  Admin1 : String
  deriving DecidableEq, Repr

/-- The query parameters `geocodeLocation` adds to `params` (main.go, lines
135-149), in the order of the `params.Add` calls. -/
def geocodeParams (U : CaseTables) (location country : String) : List (String × String) :=
  let params := [("name", location)]
  let params :=
    if country ≠ "" then params ++ [("count", "10")] else params ++ [("count", "1")]
  let params := params ++ [("language", "en")]
  if country ≠ "" then
    let countryCode := getCountryCode U country
    if countryCode ≠ "" then params ++ [("country_code", countryCode)] else params
  else params

/-- What the geocoding exchange of `geocodeLocation` (lines 151-161) hands to
the rest of the function: the request failed, the body did not decode, or the
body decoded to the list `geocode.Results`. -/
inductive Exchange
  | requestFailed (err : String)
  | undecodable (err : String)
  | decoded (results : List GeocodeResult)

/-- The `for _, result := range geocode.Results` loop of `geocodeLocation`
(lines 173-177): the first result with a non-empty country code that
`strings.EqualFold` equates with `countryCode`, if there is one. -/
def matchLoop (U : CaseTables) (countryCode : String) :
    List GeocodeResult → Option GeocodeResult
  | [] => none
  | result :: rest =>
    if result.CountryCode ≠ "" ∧ EqualFold U result.CountryCode countryCode = true then
      some result
    else matchLoop U countryCode rest

/-- Embedding of `geocodeLocation` (main.go, lines 133-182) from the point
where the exchange with the service has ended; the outcome of that exchange is
the argument `resp`. -/
def geocodeLocation (U : CaseTables) (location country : String) (resp : Exchange) :
    Except String GeocodeResult :=
  match resp with
  | Exchange.requestFailed err => Except.error ("geocoding request failed: " ++ err)
  | Exchange.undecodable err =>
    Except.error ("failed to decode geocoding response: " ++ err)
  | Exchange.decoded results =>
    match results with
    | [] =>
      -- len(geocode.Results) == 0
      if country ≠ "" then
        Except.error ("location \x27" ++ location ++ "\x27 not found in " ++ country)
      else Except.error ("location \x27" ++ location ++ "\x27 not found")
    | first :: _ =>
      if country ≠ "" then
        -- If country is specified, find the first result matching that country
        let countryCode := getCountryCode U country
        match matchLoop U countryCode results with
        | some result => Except.ok result
        | none =>
          Except.error ("location \x27" ++ location ++ "\x27 not found in " ++ country)
      else Except.ok first

/-! ## Positional arguments (`main`) -/

/-- The positional-argument part of `main` (main.go, lines 97-118): `none` is
the usage exit taken when `flag.NArg() < 1`; otherwise the pair
`(location, country)` handed to `geocodeLocation`. -/
def mainArgs (args : List String) : Option (String × String) :=
  if args.length < 1 then none
  else if h : args.length ≥ 2 then
    some (Join (args.take (args.length - 1)) " ",
      args.get ⟨args.length - 1, by omega⟩)
  else some (Join args " ", "")

/-! ## Forecast rendering (`displayHourlyForecast`, `displayDailyForecast`) -/

/-- The Go struct `Current` (main.go, lines 40-49). -/
structure Current where
  Time : String
  Temperature2m : Rat
  RelativeHumidity2m : Int
  ApparentTemperature : Rat
  Precipitation : Rat
  WeatherCode : Int
  WindSpeed10m : Rat
  WindDirection10m : Rat

/-- The Go struct `CurrentUnits` (main.go, lines 51-60). -/
structure CurrentUnits where
  Time : String
  Temperature2m : String
  RelativeHumidity2m : String
  ApparentTemperature : String
  Precipitation : String
  WeatherCode : String
  WindSpeed10m : String
  WindDirection10m : String

/-- The Go struct `Hourly` (main.go, lines 62-67): four slices. -/
structure Hourly where
  Time : List String
  Temperature2m : List Rat
  WeatherCode : List Int
  Precipitation : List Rat

/-- The Go struct `HourlyUnits` (main.go, lines 69-74). -/
structure HourlyUnits where
  Time : String
  Temperature2m : String
  WeatherCode : String
  Precipitation : String

/-- The Go struct `Daily` (main.go, lines 76-82): five slices. -/
structure Daily where
  Time : List String
  Temperature2mMax : List Rat
  Temperature2mMin : List Rat
  WeatherCode : List Int
  PrecipitationSum : List Rat

/-- The Go struct `DailyUnits` (main.go, lines 84-90). -/
structure DailyUnits where
  Time : String
  Temperature2mMax : String
  Temperature2mMin : String
  WeatherCode : String
  PrecipitationSum : String

/-- The Go struct `WeatherResponse` (main.go, lines 28-38); a pointer field that
may be nil is an `Option`. -/
structure WeatherResponse where
  Latitude : Rat
  Longitude : Rat
  Timezone : String
  Current : Current
  CurrentUnits : CurrentUnits
  Hourly : Option Hourly
  HourlyUnits : Option HourlyUnits
  Daily : Option Daily
  DailyUnits : Option DailyUnits

/-- One line written to standard output. A `fmt.Printf` of a forecast entry is
kept as the values it formats: the time string of the series (the printed clock
or date is `time.Parse` then `Format` of it, whose error is discarded), the
icon, the temperatures, the unit and the precipitation. -/
inductive Line
  | text (s : String)
  | hourly (timeStr icon : String) (temp : Rat) (unit : String) (precip : Rat)
  | daily (dateStr icon : String) (maxTemp minTemp : Rat) (unit : String) (precip : Rat)
  deriving DecidableEq, Repr

/-- Whether a line is a forecast entry (one `Printf` of a loop body). -/
def Line.isEntry : Line → Bool
  | Line.text _ => false
  | Line.hourly _ _ _ _ _ => true
  | Line.daily _ _ _ _ _ _ => true

/-- A run-time panic of the Go program. -/
inductive Panic
  | indexOutOfRange
  | nilDereference
  deriving DecidableEq, Repr

/-- A slice index expression `xs[i]`: it panics when `i` is out of range. -/
def index {α : Type} (xs : List α) (i : Nat) : Except Panic α :=
  match xs[i]? with
  | some x => Except.ok x
  | none => Except.error Panic.indexOutOfRange

/-- A field access through a pointer: it panics when the pointer is nil. -/
def deref {α : Type} (p : Option α) : Except Panic α :=
  match p with
  | some x => Except.ok x
  | none => Except.error Panic.nilDereference

/-- The `for` loop of `displayHourlyForecast` (main.go, lines 361-375) from
index `i` on, `out` being the lines written so far. -/
def hourlyLoop (weather : WeatherResponse) (hourly : Hourly) (i : Nat) (out : List Line) :
    Except Panic (List Line) :=
  if _h : i < hourly.Time.length ∧ i < 24 then do
    let timeStr ← index hourly.Time i
    let temp ← index hourly.Temperature2m i
    let precip ← index hourly.Precipitation i
    let code ← index hourly.WeatherCode i
    let icon := getWeatherIcon code
    let units ← deref weather.HourlyUnits
    hourlyLoop weather hourly (i + 1)
      (out ++ [Line.hourly timeStr icon temp units.Temperature2m precip])
  else pure out
termination_by 24 - i
decreasing_by omega

/-- Embedding of `displayHourlyForecast` (main.go, lines 357-377): the lines it
writes, or the panic that stops it. -/
def displayHourlyForecast (weather : WeatherResponse) : Except Panic (List Line) := do
  let out := [Line.text "ðŸ• 24-Hour Forecast:",
    Line.text "â”€â”€â”€â”€â”€â”€â”€â”€â”€â”€â”€â”€â”€â”€â”€â”€â”€â”€â”€â”€"]
  let hourly ← deref weather.Hourly
  let out ← hourlyLoop weather hourly 0 out
  pure (out ++ [Line.text ""])

/-- The `for` loop of `displayDailyForecast` (main.go, lines 383-398) from index
`i` on, `out` being the lines written so far. -/
def dailyLoop (weather : WeatherResponse) (daily : Daily) (i : Nat) (out : List Line) :
    Except Panic (List Line) :=
  if _h : i < daily.Time.length ∧ i < 7 then do
    let dateStr ← index daily.Time i
    let maxTemp ← index daily.Temperature2mMax i
    let minTemp ← index daily.Temperature2mMin i
    let precip ← index daily.PrecipitationSum i
    let code ← index daily.WeatherCode i
    let icon := getWeatherIcon code
    let units ← deref weather.DailyUnits
    dailyLoop weather daily (i + 1)
      (out ++ [Line.daily dateStr icon maxTemp minTemp units.Temperature2mMax precip])
  else pure out
termination_by 7 - i
decreasing_by omega

/-- Embedding of `displayDailyForecast` (main.go, lines 379-400): the lines it
writes, or the panic that stops it. -/
def displayDailyForecast (weather : WeatherResponse) : Except Panic (List Line) := do
  let out := [Line.text "ðŸ“… 7-Day Forecast:",
    Line.text "â”€â”€â”€â”€â”€â”€â”€â”€â”€â”€â”€â”€â”€â”€â”€â”€â”€"]
  let daily ← deref weather.Daily
  let out ← dailyLoop weather daily 0 out
  pure (out ++ [Line.text ""])

/-! ## The lines the forecast claims speak of -/

/-- The entry line of index `i` of an hourly series: the values of the four
slices at `i`, the icon of the weather code and the temperature unit. -/
def hourlyEntry (hourly : Hourly) (units : HourlyUnits) (i : Nat) : Line :=
  Line.hourly (hourly.Time.getD i "") (getWeatherIcon (hourly.WeatherCode.getD i 0))
    (hourly.Temperature2m.getD i 0) units.Temperature2m (hourly.Precipitation.getD i 0)

/-- The entry line of index `i` of a daily series. -/
def dailyEntry (daily : Daily) (units : DailyUnits) (i : Nat) : Line :=
  Line.daily (daily.Time.getD i "") (getWeatherIcon (daily.WeatherCode.getD i 0))
    (daily.Temperature2mMax.getD i 0) (daily.Temperature2mMin.getD i 0)
    units.Temperature2mMax (daily.PrecipitationSum.getD i 0)

/-- The number of entry lines a run wrote: `none` when the run panicked. -/
def entryCount (run : Except Panic (List Line)) : Option Nat :=
  match run with
  | Except.ok out => some (out.filter Line.isEntry).length
  | Except.error _ => none

/-! ## Concrete inputs used by the evaluations -/

/-- A candidate as the geocoding service returns it for Paris, France. -/
def parisFR : GeocodeResult :=
  { Name := "Paris", Latitude := 48, Longitude := 2, Country := "France",
    CountryCode := "FR", Admin1 := "Ile-de-France" }

/-- A candidate for Paris, Texas. -/
def parisUS : GeocodeResult :=
  { Name := "Paris", Latitude := 33, Longitude := -95, Country := "United States",
    CountryCode := "US", Admin1 := "Texas" }

/-- A candidate for Paris, Ontario. -/
def parisCA : GeocodeResult :=
  { Name := "Paris", Latitude := 43, Longitude := -80, Country := "Canada",
    CountryCode := "CA", Admin1 := "Ontario" }

/-- A candidate whose JSON object has no `country_code` field, so that the
decoded `CountryCode` is the empty string. -/
def parisNoCode : GeocodeResult :=
  { Name := "Paris", Latitude := 48, Longitude := 2, Country := "",
    CountryCode := "", Admin1 := "" }

/-- The empty `current` block of the sample snapshots. -/
def sampleCurrent : Current :=
  { Time := "", Temperature2m := 0, RelativeHumidity2m := 0, ApparentTemperature := 0,
    Precipitation := 0, WeatherCode := 0, WindSpeed10m := 0, WindDirection10m := 0 }

/-- The `current_units` block of the sample snapshots. -/
def sampleCurrentUnits : CurrentUnits :=
  { Time := "", Temperature2m := "C", RelativeHumidity2m := "%", ApparentTemperature := "C",
    Precipitation := "mm", WeatherCode := "", WindSpeed10m := "km/h",
    WindDirection10m := "" }

/-- A snapshot whose hourly block has 48 entries and which has no daily block. -/
def sampleHourly48 : WeatherResponse :=
  { Latitude := 48, Longitude := 2, Timezone := "GMT",
    Current := sampleCurrent, CurrentUnits := sampleCurrentUnits,
    Hourly := some
      { Time := List.replicate 48 "2024-01-01T00:00",
        Temperature2m := List.replicate 48 7,
        WeatherCode := List.replicate 48 3,
        Precipitation := List.replicate 48 0 },
    HourlyUnits := some
      { Time := "iso8601", Temperature2m := "C", WeatherCode := "wmo code",
        Precipitation := "mm" },
    Daily := none, DailyUnits := none }

/-- A snapshot whose daily block has 3 entries and which has no hourly block. -/
def sampleDaily3 : WeatherResponse :=
  { Latitude := 48, Longitude := 2, Timezone := "GMT",
    Current := sampleCurrent, CurrentUnits := sampleCurrentUnits,
    Hourly := none, HourlyUnits := none,
    Daily := some
      { Time := ["2024-01-01", "2024-01-02", "2024-01-03"],
        Temperature2mMax := [9, 8, 7],
        Temperature2mMin := [1, 2, 3],
        WeatherCode := [0, 61, 95],
        PrecipitationSum := [0, 4, 12] },
    DailyUnits := some
      { Time := "iso8601", Temperature2mMax := "C", Temperature2mMin := "C",
        WeatherCode := "wmo code", PrecipitationSum := "mm" } }

/-! ## Theorems -/

/-- The seven icons are pairwise different, so an icon determines its bucket. -/
theorem Bucket.icon_injective : Function.Injective Bucket.icon := by
  intro a b h
  cases a <;> cases b <;> first | rfl | (exact absurd h (by decide))

/-- The seven scenes are pairwise different, so a scene determines its bucket. -/
theorem Bucket.scene_injective : Function.Injective Bucket.scene := by
  intro a b h
  cases a <;> cases b <;> first | rfl | (exact absurd h (by decide))

/-- The scene of every bucket ends with the caption of that bucket. -/
theorem Bucket.scene_caption (b : Bucket) : lastLineTrimmed b.scene = b.caption := by
  cases b <;> decide

/-- C1. For every integer weather code `c`, `getWeatherIcon c` is the icon and
`getWeatherASCII c` is the scene, as the tables `Bucket.icon` and
`Bucket.scene` give them, of one and the same bucket, `classification c`, and
the scene returned is captioned with the name of that bucket; that bucket is
clear for 0, partly cloudy for 1..3, fog for 45..48, drizzle for 51..67, rain
shower for 80..82, thunderstorm for 95..99, and cloudy exactly for the
remaining integers (negative, 4..44, 49..50, 68..79, 83..94, above 99); the
representations of different buckets differ. -/
theorem weather_code_classification (c : Int) :
    getWeatherIcon c = (classification c).icon ∧
    getWeatherASCII c = (classification c).scene ∧
    lastLineTrimmed (getWeatherASCII c) = (classification c).caption ∧
    (classification c = Bucket.clear ↔ c = 0) ∧
    (classification c = Bucket.partlyCloudy ↔ 1 ≤ c ∧ c ≤ 3) ∧
    (classification c = Bucket.fog ↔ 45 ≤ c ∧ c ≤ 48) ∧
    (classification c = Bucket.drizzle ↔ 51 ≤ c ∧ c ≤ 67) ∧
    (classification c = Bucket.rainShower ↔ 80 ≤ c ∧ c ≤ 82) ∧
    (classification c = Bucket.thunderstorm ↔ 95 ≤ c ∧ c ≤ 99) ∧
    (classification c = Bucket.cloudy ↔
      c < 0 ∨ (4 ≤ c ∧ c ≤ 44) ∨ (49 ≤ c ∧ c ≤ 50) ∨ (68 ≤ c ∧ c ≤ 79) ∨
        (83 ≤ c ∧ c ≤ 94) ∨ 99 < c) ∧
    Function.Injective Bucket.icon ∧ Function.Injective Bucket.scene := by
  have hscene : getWeatherASCII c = (classification c).scene := by
    unfold classification getWeatherASCII
    split_ifs <;> rfl
  refine ⟨?_, hscene, ?_, ?_, ?_, ?_, ?_, ?_, ?_, ?_,
    Bucket.icon_injective, Bucket.scene_injective⟩
  · unfold classification getWeatherIcon
    split_ifs <;> rfl
  · rw [hscene]
    exact Bucket.scene_caption _
  all_goals
    unfold classification
    split_ifs <;> constructor <;> intro h <;> first | omega | rfl | (exact absurd h (by decide))

/-! ### Country-code resolution -/

/-- A key of an association list with distinct keys is found by `lookup`. -/
theorem lookup_of_mem (l : List (String × String)) (k v : String)
    (hnd : (l.map Prod.fst).Nodup) (hm : (k, v) ∈ l) : l.lookup k = some v := by
  induction l with
  | nil => simp at hm
  | cons p t ih =>
    obtain ⟨k', v'⟩ := p
    simp only [List.map_cons, List.nodup_cons, List.mem_map, Prod.exists, exists_and_right,
      exists_eq_right, not_exists] at hnd
    rcases List.mem_cons.mp hm with h | h
    · cases h
      simp [List.lookup]
    · have hne : k ≠ k' := by
        rintro rfl
        exact hnd.1 v h
      have hb : (k == k') = false := by simpa using hne
      simp only [List.lookup, hb]
      exact ih hnd.2 h

/-- A string that is no key of an association list is not found by `lookup`. -/
theorem lookup_of_not_key (l : List (String × String)) (k : String)
    (hk : k ∉ l.map Prod.fst) : l.lookup k = none := by
  induction l with
  | nil => rfl
  | cons p t ih =>
    obtain ⟨k', v'⟩ := p
    simp only [List.map_cons, List.mem_cons, not_or] at hk
    have hb : (k == k') = false := by simpa using hk.1
    simp only [List.lookup, hb]
    exact ih hk.2

/-- The keys of `countryMap` are pairwise different, as Go requires of a map
literal. -/
theorem countryMap_keys_nodup : (countryMap.map Prod.fst).Nodup := by decide

/-- Every value of `countryMap` is two bytes long. -/
theorem countryMap_values_len : ∀ p ∈ countryMap, len p.2 = 2 := by decide

/-- C2. Evaluation of `getCountryCode` at the inputs of the claim: the two-byte
early return answers `"UK"` for `" uk "` and for `"UK"`, not `"GB"`, although
the map literal holds the entry `"UK": "GB"`; only `"United Kingdom"` reaches
the table and resolves to `"GB"`. -/
theorem getCountryCode_uk_early_return (U : CaseTables) :
    getCountryCode U " uk " = "UK" ∧ getCountryCode U "UK" = "UK" ∧
    getCountryCode U "United Kingdom" = "GB" ∧
    countryMap.lookup "UK" = some "GB" := by
  have hn : normalize U "United Kingdom" = "UNITED KINGDOM" := rfl
  refine ⟨rfl, rfl, ?_, by decide⟩
  simp only [getCountryCode, hn]
  decide

/-- C3. For every country input whose trimmed, upper-cased form `n` has length
exactly 2 (Go's `len`, the number of bytes), `getCountryCode` returns `n`
itself, whatever `n` is: the alias table is not consulted. -/
theorem getCountryCode_two_letter (U : CaseTables) (s : String)
    (h : len (normalize U s) = 2) : getCountryCode U s = normalize U s := by
  simp [getCountryCode, h]

/-- Witness of C3 at `" zz "`, no ISO code and no key of the table, and at
`" uk "`, a key of the table. -/
theorem getCountryCode_two_letter_witness :
    (len (normalize asciiOnly " zz ") = 2 ∧ getCountryCode asciiOnly " zz " = "ZZ") ∧
    ("UK" ∈ countryMap.map Prod.fst ∧ getCountryCode asciiOnly " uk " = "UK") :=
  ⟨⟨by decide, getCountryCode_two_letter asciiOnly " zz " (by decide)⟩,
   ⟨by decide, getCountryCode_two_letter asciiOnly " uk " (by decide)⟩⟩

/-- C4. For every country input whose trimmed, upper-cased form `n` does not
have length 2: when `n` is no key of the alias table, `getCountryCode` returns
the empty string; when `n` is a key, it returns the value of that key, which is
two bytes long. The function is total, so it never fails. -/
theorem getCountryCode_table (U : CaseTables) (s : String)
    (h : len (normalize U s) ≠ 2) :
    (normalize U s ∉ countryMap.map Prod.fst → getCountryCode U s = "") ∧
    (∀ v, (normalize U s, v) ∈ countryMap → getCountryCode U s = v ∧ len v = 2) := by
  constructor
  · intro hk
    simp [getCountryCode, h, lookup_of_not_key countryMap _ hk]
  · intro v hv
    refine ⟨?_, countryMap_values_len _ hv⟩
    simp [getCountryCode, h, lookup_of_mem countryMap _ v countryMap_keys_nodup hv]

/-- Witness of C4: the unknown `"Atlantis"` gives the empty string, and
`" united kingdom "` gives `"GB"`. -/
theorem getCountryCode_table_witness :
    getCountryCode asciiOnly "Atlantis" = "" ∧
    getCountryCode asciiOnly " united kingdom " = "GB" :=
  ⟨(getCountryCode_table asciiOnly "Atlantis" (by decide)).1 (by decide),
   ((getCountryCode_table asciiOnly " united kingdom " (by decide)).2 "GB" (by decide)).1⟩

/-! ### Geocoding candidate selection -/

/-- Under `strings.EqualFold` only the empty string equals the empty string. -/
theorem EqualFold_empty_left (U : CaseTables) (t : String)
    (h : EqualFold U "" t = true) : t = "" := by
  obtain ⟨l⟩ := t
  cases l with
  | nil => rfl
  | cons a l => simp [EqualFold, equalFoldRunes] at h

/-- The same with the empty string on the right. -/
theorem EqualFold_empty_right (U : CaseTables) (s : String)
    (h : EqualFold U s "" = true) : s = "" := by
  obtain ⟨l⟩ := s
  cases l with
  | nil => rfl
  | cons a l => simp [EqualFold, equalFoldRunes] at h

/-- For a non-empty code the loop of `geocodeLocation` is a search for the first
candidate whose country code is fold-equal to the code: the guard on an empty
country code never decides. -/
theorem matchLoop_eq_find (U : CaseTables) (code : String) (hcode : code ≠ "")
    (results : List GeocodeResult) :
    matchLoop U code results =
      results.find? (fun r => EqualFold U r.CountryCode code) := by
  induction results with
  | nil => rfl
  | cons r rest ih =>
    by_cases hf : EqualFold U r.CountryCode code = true
    · have hne : r.CountryCode ≠ "" := by
        intro he
        rw [he] at hf
        exact hcode (EqualFold_empty_left U code hf)
      simp [matchLoop, List.find?, hf, hne]
    · simp [matchLoop, List.find?, hf, ih]

/-- For the empty code the loop of `geocodeLocation` selects nothing. -/
theorem matchLoop_empty_code (U : CaseTables) (results : List GeocodeResult) :
    matchLoop U "" results = none := by
  induction results with
  | nil => rfl
  | cons r rest ih =>
    have hg : ¬ (r.CountryCode ≠ "" ∧ EqualFold U r.CountryCode "" = true) := by
      rintro ⟨hne, hf⟩
      exact hne (EqualFold_empty_right U _ hf)
    simp only [matchLoop, hg, if_false]
    exact ih

/-- A non-empty country hint that resolves to the empty code makes
`geocodeLocation` fail on every candidate list. -/
theorem geocodeLocation_unresolved_hint (U : CaseTables) (location country : String)
    (results : List GeocodeResult) (hc : country ≠ "")
    (hcode : getCountryCode U country = "") :
    geocodeLocation U location country (Exchange.decoded results) =
      Except.error ("location \x27" ++ location ++ "\x27 not found in " ++ country) := by
  cases results with
  | nil => simp [geocodeLocation, hc]
  | cons r rest => simp [geocodeLocation, hc, hcode, matchLoop_empty_code]

/-- C5, the claim as stated fails: the hint `"Atlantis"` resolves to the empty
code, the single candidate has an empty country code, which equals the resolved
code case-insensitively, yet `geocodeLocation` does not return that candidate:
it fails. -/
theorem geocodeLocation_empty_code_candidate :
    getCountryCode asciiOnly "Atlantis" = "" ∧
    [parisNoCode].find?
        (fun r => EqualFold asciiOnly r.CountryCode (getCountryCode asciiOnly "Atlantis")) =
      some parisNoCode ∧
    geocodeLocation asciiOnly "Paris" "Atlantis" (Exchange.decoded [parisNoCode]) =
      Except.error "location \x27Paris\x27 not found in Atlantis" ∧
    geocodeLocation asciiOnly "Paris" "Atlantis" (Exchange.decoded [parisNoCode]) ≠
      Except.ok parisNoCode := by
  refine ⟨by decide, by decide, rfl, ?_⟩
  intro h
  have h2 : geocodeLocation asciiOnly "Paris" "Atlantis" (Exchange.decoded [parisNoCode]) =
      Except.error "location \x27Paris\x27 not found in Atlantis" := rfl
  rw [h2] at h
  cases h

/-- C5, amended. With a non-empty country hint that `getCountryCode` resolves to
a non-empty code, for every candidate list the result of `geocodeLocation` is
the first candidate in list order whose country code equals the resolved code
under `strings.EqualFold`, and the call fails with the message naming the
location and the country when no candidate matches (the empty list included). -/
theorem geocodeLocation_country_hint (U : CaseTables) (location country : String)
    (results : List GeocodeResult) (hc : country ≠ "")
    (hcode : getCountryCode U country ≠ "") :
    geocodeLocation U location country (Exchange.decoded results) =
      match results.find?
          (fun r => EqualFold U r.CountryCode (getCountryCode U country)) with
      | some r => Except.ok r
      | none =>
        Except.error ("location \x27" ++ location ++ "\x27 not found in " ++ country) := by
  cases results with
  | nil => simp [geocodeLocation, hc]
  | cons r rest =>
    simp only [geocodeLocation, hc, ne_eq, not_false_eq_true, if_true]
    rw [matchLoop_eq_find U _ hcode]

/-- Witness of C5: of three candidates of which only the second has country
code `"FR"`, with the hint `"France"`, the second is returned; with no
candidate of that country the call fails naming location and country. -/
theorem geocodeLocation_country_hint_witness :
    getCountryCode asciiOnly "France" = "FR" ∧
    geocodeLocation asciiOnly "Paris" "France"
        (Exchange.decoded [parisUS, parisFR, parisCA]) = Except.ok parisFR ∧
    geocodeLocation asciiOnly "Paris" "France" (Exchange.decoded [parisUS, parisCA]) =
      Except.error "location \x27Paris\x27 not found in France" :=
  ⟨by decide,
   geocodeLocation_country_hint asciiOnly "Paris" "France" [parisUS, parisFR, parisCA]
     (by decide) (by decide),
   geocodeLocation_country_hint asciiOnly "Paris" "France" [parisUS, parisCA]
     (by decide) (by decide)⟩

/-- C6. With an empty country hint, `geocodeLocation` returns the first
candidate of every non-empty candidate list, whatever its country, and fails
with the not-found message on the empty list; with a country hint the empty
list fails as well, the message then naming the country too. -/
theorem geocodeLocation_no_hint (U : CaseTables) (location country : String)
    (first : GeocodeResult) (rest : List GeocodeResult) :
    geocodeLocation U location "" (Exchange.decoded (first :: rest)) = Except.ok first ∧
    geocodeLocation U location "" (Exchange.decoded []) =
      Except.error ("location \x27" ++ location ++ "\x27 not found") ∧
    geocodeLocation U location country (Exchange.decoded []) =
      (if country = "" then
        Except.error ("location \x27" ++ location ++ "\x27 not found")
      else
        Except.error ("location \x27" ++ location ++ "\x27 not found in " ++ country)) := by
  refine ⟨?_, ?_, ?_⟩
  · simp [geocodeLocation]
  · simp [geocodeLocation]
  · by_cases hc : country = "" <;> simp [geocodeLocation, hc]

/-- C7. Evaluation of `geocodeLocation` at the hint `"Atlantis"`, which
`getCountryCode` resolves to the empty string: the query is built without a
country filter, but the selection fails on the candidate list that, with no
hint, yields its first candidate. -/
theorem geocodeLocation_unknown_country_fails :
    getCountryCode asciiOnly "Atlantis" = "" ∧
    geocodeParams asciiOnly "Paris" "Atlantis" =
      [("name", "Paris"), ("count", "10"), ("language", "en")] ∧
    geocodeLocation asciiOnly "Paris" "Atlantis" (Exchange.decoded [parisFR]) =
      Except.error "location \x27Paris\x27 not found in Atlantis" ∧
    geocodeLocation asciiOnly "Paris" "" (Exchange.decoded [parisFR]) = Except.ok parisFR :=
  ⟨by decide, by decide, rfl, rfl⟩

/-! ### Positional arguments -/

/-- The builder loop of `strings.Join` computes the accumulator of
`String.intercalate`. -/
theorem foldl_eq_intercalate_go (sep : String) (rest : List String) (acc : String) :
    rest.foldl (fun b s => b ++ sep ++ s) acc = String.intercalate.go acc sep rest := by
  induction rest generalizing acc with
  | nil => rfl
  | cons a rest ih => simp only [List.foldl, String.intercalate.go, ih]

/-- Go's `strings.Join` is the concatenation of the elements with the separator
between every two neighbours. -/
theorem Join_eq_intercalate (elems : List String) (sep : String) :
    Join elems sep = sep.intercalate elems := by
  match elems with
  | [] => rfl
  | [e] => rfl
  | e :: e2 :: rest =>
    simp only [Join, String.intercalate]
    exact foldl_eq_intercalate_go sep (e2 :: rest) e

/-- C8. For every list of two or more positional tokens, written
`a :: init ++ [last]`, the country hint is the last token and the location is
all preceding tokens joined with single spaces; for exactly one token `t` the
location is `t` and the country hint is empty; `["New", "York", "US"]` gives
location `"New York"` and country `"US"`. -/
theorem mainArgs_split (a : String) (init : List String) (last t : String) :
    mainArgs (a :: init ++ [last]) = some (" ".intercalate (a :: init), last) ∧
    mainArgs [t] = some (t, "") ∧
    mainArgs ["New", "York", "US"] = some ("New York", "US") := by
  refine ⟨?_, rfl, by decide⟩
  have hlen : (a :: init ++ [last]).length = (a :: init).length + 1 := by simp
  have h1 : ¬ (a :: init ++ [last]).length < 1 := by simp
  have h2 : (a :: init ++ [last]).length ≥ 2 := by simp
  have htake : (a :: init ++ [last]).take ((a :: init ++ [last]).length - 1) = a :: init := by
    rw [hlen, Nat.add_sub_cancel]
    exact List.take_left (a :: init) [last]
  have hget : ∀ h : (a :: init ++ [last]).length - 1 < (a :: init ++ [last]).length,
      (a :: init ++ [last]).get ⟨(a :: init ++ [last]).length - 1, h⟩ = last := by
    intro h
    have hi : (a :: init ++ [last]).length - 1 = (a :: init).length := by
      rw [hlen, Nat.add_sub_cancel]
    simp only [List.get_eq_getElem, hi]
    exact List.getElem_concat_length (a :: init) last _ rfl _
  unfold mainArgs
  rw [if_neg h1, dif_pos h2, htake, hget, Join_eq_intercalate]

/-- C9, the claim as stated fails: the two tokens `["San", "Francisco"]` do not
give the location `"San Francisco"` with an empty country hint. -/
theorem mainArgs_san_francisco_not_joined :
    mainArgs ["San", "Francisco"] ≠ some ("San Francisco", "") := by decide

/-- C9, amended. The two tokens `["San", "Francisco"]` give the location `"San"`
and the country hint `"Francisco"`; the location `"San Francisco"` with an empty
country hint is what the single token `"San Francisco"` gives. -/
theorem mainArgs_san_francisco :
    mainArgs ["San", "Francisco"] = some ("San", "Francisco") ∧
    mainArgs ["San Francisco"] = some ("San Francisco", "") := by
  constructor <;> decide

/-! ### Forecast truncation -/

/-- An index below the length of a slice does not panic and yields the element
at that index. -/
theorem index_of_lt {α : Type} (xs : List α) (i : Nat) (d : α) (h : i < xs.length) :
    index xs i = Except.ok (xs.getD i d) := by
  simp [index, List.getD, List.getElem?_eq_getElem h]

/-- The loop of `displayHourlyForecast`, started at index `i` with `k` indices
left below `min n 24`, appends the entry lines of the indices `i, ..., i+k-1`. -/
theorem hourlyLoop_entries (weather : WeatherResponse) (hourly : Hourly)
    (units : HourlyUnits) (n : Nat) (hu : weather.HourlyUnits = some units)
    (h1 : hourly.Time.length = n) (h2 : hourly.Temperature2m.length = n)
    (h3 : hourly.WeatherCode.length = n) (h4 : hourly.Precipitation.length = n) :
    ∀ (k i : Nat) (out : List Line), i + k = min n 24 →
      hourlyLoop weather hourly i out =
        Except.ok (out ++ (List.range' i k).map (hourlyEntry hourly units)) := by
  intro k
  induction k with
  | zero =>
    intro i out hi
    rw [hourlyLoop]
    have hc : ¬ (i < hourly.Time.length ∧ i < 24) := by omega
    simp [hc, pure, Except.pure]
  | succ k ih =>
    intro i out hi
    rw [hourlyLoop]
    have hc : i < hourly.Time.length ∧ i < 24 := by omega
    have hlt : i < n := by omega
    rw [dif_pos hc, index_of_lt hourly.Time i "" (by omega),
      index_of_lt hourly.Temperature2m i 0 (by omega),
      index_of_lt hourly.Precipitation i 0 (by omega),
      index_of_lt hourly.WeatherCode i 0 (by omega), hu]
    simp only [bind, Except.bind, deref]
    rw [ih (i + 1) _ (by omega)]
    simp [List.range', hourlyEntry]

/-- The loop of `displayDailyForecast`, started at index `i` with `k` indices
left below `min n 7`, appends the entry lines of the indices `i, ..., i+k-1`. -/
theorem dailyLoop_entries (weather : WeatherResponse) (daily : Daily)
    (units : DailyUnits) (n : Nat) (hu : weather.DailyUnits = some units)
    (h1 : daily.Time.length = n) (h2 : daily.Temperature2mMax.length = n)
    (h3 : daily.Temperature2mMin.length = n) (h4 : daily.WeatherCode.length = n)
    (h5 : daily.PrecipitationSum.length = n) :
    ∀ (k i : Nat) (out : List Line), i + k = min n 7 →
      dailyLoop weather daily i out =
        Except.ok (out ++ (List.range' i k).map (dailyEntry daily units)) := by
  intro k
  induction k with
  | zero =>
    intro i out hi
    rw [dailyLoop]
    have hc : ¬ (i < daily.Time.length ∧ i < 7) := by omega
    simp [hc, pure, Except.pure]
  | succ k ih =>
    intro i out hi
    rw [dailyLoop]
    have hc : i < daily.Time.length ∧ i < 7 := by omega
    rw [dif_pos hc, index_of_lt daily.Time i "" (by omega),
      index_of_lt daily.Temperature2mMax i 0 (by omega),
      index_of_lt daily.Temperature2mMin i 0 (by omega),
      index_of_lt daily.PrecipitationSum i 0 (by omega),
      index_of_lt daily.WeatherCode i 0 (by omega), hu]
    simp only [bind, Except.bind, deref]
    rw [ih (i + 1) _ (by omega)]
    simp [List.range', dailyEntry]

/-- Every line of a list of hourly entries is an entry line. -/
theorem filter_isEntry_hourly (hourly : Hourly) (units : HourlyUnits) (l : List Nat) :
    (l.map (hourlyEntry hourly units)).filter Line.isEntry =
      l.map (hourlyEntry hourly units) := by
  induction l with
  | nil => rfl
  | cons a l ih => simp [hourlyEntry, Line.isEntry, List.filter] at ih ⊢

/-- Every line of a list of daily entries is an entry line. -/
theorem filter_isEntry_daily (daily : Daily) (units : DailyUnits) (l : List Nat) :
    (l.map (dailyEntry daily units)).filter Line.isEntry =
      l.map (dailyEntry daily units) := by
  induction l with
  | nil => rfl
  | cons a l ih => simp [dailyEntry, Line.isEntry, List.filter] at ih ⊢

/-- The hypotheses of the truncation theorem are needed: when the time slice
has an entry and the temperature slice has none, the first iteration of the
loop of `displayHourlyForecast` panics with an index out of range. -/
theorem hourlyLoop_short_slice_panics (weather : WeatherResponse) (hourly : Hourly)
    (out : List Line) (ht : 0 < hourly.Time.length) (hs : hourly.Temperature2m = []) :
    hourlyLoop weather hourly 0 out = Except.error Panic.indexOutOfRange := by
  rw [hourlyLoop]
  have hc : 0 < hourly.Time.length ∧ 0 < 24 := ⟨ht, by omega⟩
  rw [dif_pos hc, index_of_lt hourly.Time 0 "" ht, hs]
  rfl

/-- When the hourly units block is absent and the four slices have an entry,
the first iteration of the loop of `displayHourlyForecast` panics with a nil
dereference. -/
theorem hourlyLoop_nil_units_panics (weather : WeatherResponse) (hourly : Hourly)
    (out : List Line) (hu : weather.HourlyUnits = none)
    (h1 : 0 < hourly.Time.length) (h2 : 0 < hourly.Temperature2m.length)
    (h3 : 0 < hourly.WeatherCode.length) (h4 : 0 < hourly.Precipitation.length) :
    hourlyLoop weather hourly 0 out = Except.error Panic.nilDereference := by
  rw [hourlyLoop]
  have hc : 0 < hourly.Time.length ∧ 0 < 24 := ⟨h1, by omega⟩
  rw [dif_pos hc, index_of_lt hourly.Time 0 "" h1,
    index_of_lt hourly.Temperature2m 0 0 h2,
    index_of_lt hourly.Precipitation 0 0 h4,
    index_of_lt hourly.WeatherCode 0 0 h3, hu]
  rfl

/-- C10. For every snapshot whose hourly block is present with four slices of
one length `n` and whose hourly units are present, `displayHourlyForecast` does
not panic and writes, between its two title lines and its closing blank line,
exactly the entry lines of the indices `0, ..., min n 24 - 1` in order, hence
`min n 24` of them; likewise `displayDailyForecast` writes exactly the
`min m 7` entry lines of a daily block of five slices of one length `m`. -/
theorem forecast_truncation (wh wd : WeatherResponse) (hourly : Hourly)
    (hunits : HourlyUnits) (daily : Daily) (dunits : DailyUnits) (n m : Nat)
    (hh : wh.Hourly = some hourly) (hhu : wh.HourlyUnits = some hunits)
    (h1 : hourly.Time.length = n) (h2 : hourly.Temperature2m.length = n)
    (h3 : hourly.WeatherCode.length = n) (h4 : hourly.Precipitation.length = n)
    (hd : wd.Daily = some daily) (hdu : wd.DailyUnits = some dunits)
    (d1 : daily.Time.length = m) (d2 : daily.Temperature2mMax.length = m)
    (d3 : daily.Temperature2mMin.length = m) (d4 : daily.WeatherCode.length = m)
    (d5 : daily.PrecipitationSum.length = m) :
    (∃ title rule : String, displayHourlyForecast wh =
      Except.ok ([Line.text title, Line.text rule] ++
        (List.range (min n 24)).map (hourlyEntry hourly hunits) ++ [Line.text ""])) ∧
    entryCount (displayHourlyForecast wh) = some (min n 24) ∧
    (∃ title rule : String, displayDailyForecast wd =
      Except.ok ([Line.text title, Line.text rule] ++
        (List.range (min m 7)).map (dailyEntry daily dunits) ++ [Line.text ""])) ∧
    entryCount (displayDailyForecast wd) = some (min m 7) := by
  have hH := hourlyLoop_entries wh hourly hunits n hhu h1 h2 h3 h4 (min n 24) 0
  have hD := dailyLoop_entries wd daily dunits m hdu d1 d2 d3 d4 d5 (min m 7) 0
  have eH : ∀ title rule : String, displayHourlyForecast wh =
      Except.ok ([Line.text title, Line.text rule] ++
        (List.range (min n 24)).map (hourlyEntry hourly hunits) ++ [Line.text ""]) →
      entryCount (displayHourlyForecast wh) = some (min n 24) := by
    intro title rule h
    rw [h]
    simp [entryCount, List.filter_append, filter_isEntry_hourly, Line.isEntry, List.filter]
  have eD : ∀ title rule : String, displayDailyForecast wd =
      Except.ok ([Line.text title, Line.text rule] ++
        (List.range (min m 7)).map (dailyEntry daily dunits) ++ [Line.text ""]) →
      entryCount (displayDailyForecast wd) = some (min m 7) := by
    intro title rule h
    rw [h]
    simp [entryCount, List.filter_append, filter_isEntry_daily, Line.isEntry, List.filter]
  have rH : ∃ title rule : String, displayHourlyForecast wh =
      Except.ok ([Line.text title, Line.text rule] ++
        (List.range (min n 24)).map (hourlyEntry hourly hunits) ++ [Line.text ""]) := by
    unfold displayHourlyForecast
    rw [hh]
    simp only [bind, Except.bind, deref, pure, Except.pure]
    rw [hH _ (by omega), List.range_eq_range']
    exact ⟨_, _, rfl⟩
  have rD : ∃ title rule : String, displayDailyForecast wd =
      Except.ok ([Line.text title, Line.text rule] ++
        (List.range (min m 7)).map (dailyEntry daily dunits) ++ [Line.text ""]) := by
    unfold displayDailyForecast
    rw [hd]
    simp only [bind, Except.bind, deref, pure, Except.pure]
    rw [hD _ (by omega), List.range_eq_range']
    exact ⟨_, _, rfl⟩
  obtain ⟨t1, r1, e1⟩ := rH
  obtain ⟨t2, r2, e2⟩ := rD
  exact ⟨⟨t1, r1, e1⟩, eH t1 r1 e1, ⟨t2, r2, e2⟩, eD t2 r2 e2⟩

/-- Witness of C10: 48 hourly entries give 24 entry lines, and 3 daily entries
give 3 entry lines. -/
theorem forecast_truncation_witness :
    entryCount (displayHourlyForecast sampleHourly48) = some 24 ∧
    entryCount (displayDailyForecast sampleDaily3) = some 3 := by
  have h := forecast_truncation sampleHourly48 sampleDaily3 _ _ _ _ 48 3
    rfl rfl (by simp) (by simp) (by simp) (by simp) rfl rfl rfl rfl rfl rfl rfl
  exact ⟨h.2.1, h.2.2.2⟩

end Gocast
